import Mathlib

/-!
# stc8prog: the reload macro and the session sequencing of `main`

A shallow embedding of `src/stc8prog.h` (the macros `LOBYTE`, `HIBYTE`, `FUSER`,
`RL`, `MINBAUD`, `MAXBAUD`) and of `src/main.c` (the option table, the option
loop and the body of `main`).

Conventions of the embedding.

* C integers are mathematical integers; a conversion to an unsigned type of
  width `w` is written as an explicit `% 2^w`.
* The functions of `termios.c`, `stc8prog.c` and the two lookup functions are
  external to `main.c`.  A run of `main` is a function of the command line and
  of an `Env`, which holds what each external call returns.  Every external
  call that `main` makes is appended to a trace of `Call`s.
* `printf` and `setbuf` are not recorded.
* `exit(1)` ends the run with status `1`; the end of `main` is `return 0`.
* The body of `main` is cut into three parts, `session`, `session_connect` and
  `session_program`, each of which hands the calls made so far to the next.
* `Outcome` lists the ways a run can end; `session_outcome` proves that every
  run ends in one of them, and the statements about runs are read off that
  list.
-/

namespace Stc8prog

/-! ## `stc8prog.h` -/

/-- The cast `(WORD)(w)`: conversion to `unsigned short`, 16 bits wide. -/
def WORD (w : Int) : Nat := (w % 65536).toNat

/-- The cast `(BYTE)(w)`: conversion to `unsigned char`, 8 bits wide. -/
def BYTE (w : Nat) : Nat := w % 256

/-- The macro `LOBYTE(w)`, `((BYTE)(WORD)(w))`. -/
def LOBYTE (w : Int) : Nat := BYTE (WORD w)

/-- The macro `HIBYTE(w)`, `((BYTE)((WORD)(w) >> 8))`. -/
def HIBYTE (w : Int) : Nat := BYTE (WORD w >>> 8)

/-- The macro `FUSER`, `24000000L`. -/
def FUSER : Int := 24000000

/-- The macro `RL(n)`, `(65536 - FUSER/4/(n))`; `/` is the truncating division
of C, and `FUSER/4/(n)` parses as `(FUSER/4)/(n)`. -/
def RL (n : Int) : Int := 65536 - Int.tdiv (Int.tdiv FUSER 4) n

/-- The macro `MINBAUD`. -/
def MINBAUD : Nat := 2400

/-- The macro `MAXBAUD`. -/
def MAXBAUD : Nat := 115200

/-! ## `main.c`: constants and the option table -/

/-- The macro `DEFAULTS_PORT`. -/
def DEFAULTS_PORT : String := "/dev/ttyUSB0"

/-- The macro `DEFAULTS_SPEED`, `115200L`. -/
def DEFAULTS_SPEED : Nat := 115200

/-- The macro `FLAG_DEBUG`, `(1U << 0)`. -/
def FLAG_DEBUG : Nat := 1 <<< 0

/-- The macro `FLAG_ERASE`, `(1U << 1)`. -/
def FLAG_ERASE : Nat := 1 <<< 1

/-- The `has_arg` field of a `struct option` of `<getopt.h>`. -/
inductive HasArg where
  | no_argument
  | required_argument
  deriving DecidableEq, Repr

/-- A `struct option` of `<getopt.h>` whose `flag` field is `0`, so that
`getopt_long` returns `val` for it. -/
structure LongOpt where
  name : String
  has_arg : HasArg
  val : Char
  deriving DecidableEq, Repr

/-- The table `options` of `main.c`, entry by entry (the terminating empty
entry is the end of the list). -/
def options : List LongOpt :=
  [ ⟨"help",    .no_argument,       'h'⟩,
    ⟨"port",    .required_argument, 'p'⟩,
    ⟨"speed",   .required_argument, 's'⟩,
    ⟨"flash",   .required_argument, 'f'⟩,
    ⟨"erase",   .no_argument,       'e'⟩,
    ⟨"debug",   .no_argument,       'e'⟩,
    ⟨"version", .no_argument,       'v'⟩ ]

/-- The option string handed to `getopt_long` in `main`. -/
def optstring : List Char := "p:s:f:edhv".toList

/-! ## The command line as `getopt_long` consumes it -/

/-- One element of the command line: a short option `-c` (a cluster `-ed` is
two elements), a long option `--name`, or a word that is not an option (it
does not begin with `-`, or it is `-` alone, or it stands after `--`).
`optarg` is the argument given to the option, if any: `-cvalue` or `-c value`
for a short option that takes one, `--name=value` for a long option, or
`--name value` for a long option that takes one.  The word `--` is
`Arg.long "" none`. -/
inductive Arg where
  | short (c : Char) (optarg : Option String)
  | long (name : String) (optarg : Option String)
  | nonopt (s : String)
  deriving DecidableEq, Repr

/-- Look a short option up in an option string: `none` when the character is
not an option character, `some true` when it is followed by a colon (takes an
argument), `some false` otherwise. -/
def shortSpec : List Char → Char → Option Bool
  | [], _ => none
  | x :: rest, c =>
    if x = c ∧ c ≠ ':' then some (rest.head? = some ':') else shortSpec rest c

/-- The word `--`, which ends the options. -/
def end_of_options : Arg := Arg.long "" none

/-- Look a long option up as `getopt_long` does: the entry with exactly that
name if there is one; otherwise the first entry whose name begins with it,
unless another entry that begins with it differs in `has_arg` or `val` (the
abbreviation is then ambiguous).  `none`: no entry, or ambiguous. -/
def longSpec (table : List LongOpt) (name : String) : Option LongOpt :=
  match table.find? (fun o => o.name = name) with
  | some o => some o
  | none =>
    match table.filter (fun o => name.toList.isPrefixOf o.name.toList) with
    | [] => none
    | o :: rest =>
      if rest.all (fun q => q.has_arg = o.has_arg ∧ q.val = o.val) then some o else none

/-- The library function `getopt_long` on one element of the command line:
the option character it returns and the value it leaves in `optarg`.  `none`:
the element yields no option character (a word that is not an option is
passed over, as `getopt_long` does when `POSIXLY_CORRECT` is not set; at `--`
the scan ends, see `option_loop`).  An unknown or ambiguous option, a missing
required argument or an argument given to a long option that takes none yield
`'?'`.  A long option may be abbreviated, see `longSpec`. -/
def getopt_long (shorts : List Char) (table : List LongOpt) :
    Arg → Option (Char × Option String)
  | .nonopt _ => none
  | .short c optarg =>
    match shortSpec shorts c with
    | none => some ('?', none)
    | some false => some (c, none)
    | some true =>
      match optarg with
      | none => some ('?', none)
      | some s => some (c, some s)
  | .long name optarg =>
    if Arg.long name optarg = end_of_options then none else
    match longSpec table name with
    | none => some ('?', none)
    | some o =>
      match o.has_arg, optarg with
      | .no_argument, none => some (o.val, none)
      | .no_argument, some _ => some ('?', none)
      | .required_argument, none => some ('?', none)
      | .required_argument, some s => some (o.val, some s)

/-! ## The option loop of `main` -/

/-- The local variables of `main` that the option loop assigns. -/
structure Opts where
  flags : Nat
  speed : Nat
  file : Option String
  port : Option String
  deriving DecidableEq, Repr

/-- The initial values of `flags`, `speed`, `file` and `port` in `main`. -/
def Opts.init : Opts :=
  { flags := 0, speed := DEFAULTS_SPEED, file := none, port := some DEFAULTS_PORT }

/-- The body of the `switch (arg)` in `main`, for one value returned by
`getopt_long`.  `none` stands for a run ended by `usage()` or `version()`,
both of which call `exit(1)`.  `speed = atoi(optarg)` stores an `int` in an
`unsigned int`, hence the `% 2^32`; with `optarg` null (which `getopt_long`
never leaves for `'s'`) the assignment is left out. -/
def switch_arg (atoi : String → Int) (st : Opts) (arg : Char) (optarg : Option String) :
    Option Opts :=
  if arg = 'p' then some { st with port := optarg }
  else if arg = 's' then
    match optarg with
    | some s => some { st with speed := (atoi s % 4294967296).toNat }
    | none => some st
  else if arg = 'f' then some { st with file := optarg }
  else if arg = 'e' then some { st with flags := st.flags ||| FLAG_ERASE }
  else if arg = 'd' then some { st with flags := st.flags ||| FLAG_DEBUG }
  else if arg = 'v' then none
  else none

/-- One iteration of the loop of `main`: the call of `getopt_long` on the next
element of the command line, then the `switch`.  An element that is not an
option is passed over. -/
def option_step (atoi : String → Int) (st : Opts) (a : Arg) : Option Opts :=
  match getopt_long optstring options a with
  | none => some st
  | some (arg, optarg) => switch_arg atoi st arg optarg

/-- The loop `while ((arg = getopt_long(...)) != -1) switch (arg) ...` of
`main`, over the elements of the command line in order.  `getopt_long` returns
`-1` at the end of the command line and at the word `--` (what follows it is
not scanned).  `none`: the run ended inside the loop with `exit(1)`. -/
def option_loop (atoi : String → Int) : Opts → List Arg → Option Opts
  | st, [] => some st
  | st, a :: rest =>
    if a = end_of_options then some st
    else
      match option_step atoi st a with
      | none => none
      | some st1 => option_loop atoi st1 rest

/-! ## `stc8db.h` (not part of the sources at hand) -/

/-- Modelled from the spec: the type `stc_model_t` of the missing header
`stc8db.h`, the chip descriptor `{ id: u16, name: string, protocol_variant,
flash_size_kb: u16 }`.  `main` reads the fields `name` and `protocol`. -/
structure stc_model_t where
  id : Nat
  name : String
  protocol : Nat
  flash_size_kb : Nat
  deriving DecidableEq, Repr

/-- Modelled from the spec: the type `stc_protocol_t` of the missing header
`stc8db.h`, the protocol descriptor `{ variant, name, cmd_detect,
cmd_baud_switch, cmd_baud_verify, cmd_erase, cmd_write_begin, cmd_write_cont,
cmd_terminate: u8, trim_constants }`.  `main` reads the field `name` and hands
the descriptor on. -/
structure stc_protocol_t where
  variant : Nat
  name : String
  cmd_detect : Nat
  cmd_baud_switch : Nat
  cmd_baud_verify : Nat
  cmd_erase : Nat
  cmd_write_begin : Nat
  cmd_write_cont : Nat
  cmd_terminate : Nat
  trim_constants : List Nat
  deriving DecidableEq, Repr

/-! ## The external calls of `main` -/

/-- A call that `main` makes to a function outside `main.c`, with the
arguments that matter to the session (the protocol descriptor and the receive
buffer, handed on unchanged, are left out). -/
inductive Call where
  | set_debug (val : Bool)
  | load_hex_file (filename : String)
  | termios_open (path : Option String)
  | termios_setup (speed databits stopbits : Nat) (parity : Char)
  | chip_detect
  | model_lookup (chip_code : Nat)
  | protocol_lookup (protocol : Nat)
  | baudrate_set (speed : Nat)
  | baudrate_check
  | flash_erase
  | flash_write (len : Nat)
  deriving DecidableEq, Repr

/-- What the world outside `main.c` answers during one run: the value each
external call returns.  `termios_setup` is called at two places, so it has two
answers.  `recv` is the content of the receive buffer after `chip_detect`
(the buffer of `main` is zero-initialised: a read past the end of the list
yields `0`). -/
structure Env where
  atoi : String → Int
  load_hex_file : Int
  termios_open : Int
  termios_setup_min : Int
  chip_detect : Int
  recv : List Nat
  model_lookup : Nat → Option stc_model_t
  protocol_lookup : Nat → Option stc_protocol_t
  baudrate_set : Int
  termios_setup_speed : Int
  baudrate_check : Int
  flash_erase : Int
  flash_write : Int

/-- A read `*(recv + i)` of the `uint8_t` buffer. -/
def recv_at (recv : List Nat) (i : Nat) : Nat := recv.getD i 0 % 256

/-- The two statements of `main` that form `chip_code`:
`chip_code = *(recv + 20); chip_code = (chip_code << 8) + *(recv + 21);`
Each assignment stores into a `uint16_t`, hence the `% 65536`. -/
def chip_code_of (recv : List Nat) : Nat :=
  let chip_code := recv_at recv 20 % 65536
  ((chip_code <<< 8) + recv_at recv 21) % 65536

/-- How a run of `main` ends: the external calls it made, in order, and the
exit status of the process. -/
structure Result where
  trace : List Call
  status : Nat
  deriving DecidableEq, Repr

/-- The test `argc < 2` of `main`: every element of the command line takes at
least one word of `argv` after the program name, so `argc < 2` holds exactly
when the command line is empty. -/
def argc_lt_2 (argv : List Arg) : Bool := argv.isEmpty

/-- The end of `main`, from `if (flags & FLAG_ERASE)` to `return 0` (lines 208
to 233), entered with the calls made so far.  A negative return of
`flash_write` only prints `failed`: the run goes on to `return 0`. -/
def session_program (st : Opts) (e : Env) (hex_size : Int) (t0 : List Call) : Result :=
  Id.run do
  let mut t := t0
  if st.flags &&& FLAG_ERASE ≠ 0 then
    t := t ++ [Call.flash_erase]
    if e.flash_erase < 0 then
      return ⟨t, 1⟩
  if st.file.isSome then
    t := t ++ [Call.flash_write (hex_size % 4294967296).toNat]
    if e.flash_write < 0 then
      pure ()
    else
      pure ()
  return ⟨t, 0⟩

/-- The middle of `main`, from `termios_open` to `baudrate_check` (lines 124 to
206), entered with the calls made so far, then `session_program`. -/
def session_connect (st : Opts) (e : Env) (hex_size : Int) (t0 : List Call) : Result :=
  Id.run do
  let mut t := t0
  t := t ++ [Call.termios_open st.port]
  if e.termios_open ≠ 0 then
    return ⟨t, 1⟩
  t := t ++ [Call.termios_setup MINBAUD 8 1 'E']
  if e.termios_setup_min ≠ 0 then
    return ⟨t, 1⟩
  t := t ++ [Call.chip_detect]
  if e.chip_detect ≠ 0 then
    return ⟨t, 1⟩
  let chip_code := chip_code_of e.recv
  t := t ++ [Call.model_lookup chip_code]
  match e.model_lookup chip_code with
  | none => return ⟨t, 1⟩
  | some stc_model =>
  t := t ++ [Call.protocol_lookup stc_model.protocol]
  match e.protocol_lookup stc_model.protocol with
  | none => return ⟨t, 1⟩
  | some _ =>
  t := t ++ [Call.baudrate_set st.speed]
  if e.baudrate_set ≠ 0 then
    return ⟨t, 1⟩
  t := t ++ [Call.termios_setup st.speed 8 1 'E']
  if e.termios_setup_speed < 0 then
    return ⟨t, 1⟩
  t := t ++ [Call.baudrate_check]
  if e.baudrate_check < 0 then
    return ⟨t, 1⟩
  return session_program st e hex_size t

/-- The body of `main` after the option loop and the `argc` test: `set_debug`
and `load_hex_file` (lines 112 to 122), then `session_connect`.  `hex_size` is
only assigned when a file is given, and only read in that case. -/
def session (st : Opts) (e : Env) : Result := Id.run do
  let mut t : List Call := []
  let mut hex_size : Int := 0
  if st.flags &&& FLAG_DEBUG ≠ 0 then
    t := t ++ [Call.set_debug true]
  if let some f := st.file then
    t := t ++ [Call.load_hex_file f]
    hex_size := e.load_hex_file
    if hex_size < 0 then
      return ⟨t, 1⟩
  return session_connect st e hex_size t

/-- The function `main`: the option loop, the `argc` test, then the session.
A run ended by `usage()` or `version()` has made no external call and has
status `1`. -/
def main (argv : List Arg) (e : Env) : Result :=
  match option_loop e.atoi Opts.init argv with
  | none => ⟨[], 1⟩
  | some st => if argc_lt_2 argv then ⟨[], 1⟩ else session st e

/-! ## Vocabulary of the statements -/

/-- The value `getopt_long` returns for an element of the command line of
`main`, if it is an option. -/
def returned (a : Arg) : Option Char :=
  (getopt_long optstring options a).map Prod.fst

/-- The part of the command line that `getopt_long` scans: the elements before
the first `--`. -/
def scanned (argv : List Arg) : List Arg :=
  argv.takeWhile (fun a => decide (a ≠ end_of_options))

/-- Some scanned element of the command line makes `getopt_long` return `c`. -/
def requested (c : Char) (argv : List Arg) : Bool :=
  (scanned argv).any (fun a => returned a == some c)

/-- The element names the option `erase`: it is `-e`, or a long option that
`getopt_long` resolves to the table entry named `erase`. -/
def names_erase : Arg → Bool
  | .short c _ => c = 'e'
  | .long name _ => (longSpec options name).map (fun o => o.name) = some "erase"
  | .nonopt _ => false

/-- The command line asks for an erase: a scanned element names the option
`erase`. -/
def erase_asked (argv : List Arg) : Bool := (scanned argv).any names_erase

/-- The calls of `main` that come before `termios_open`: `set_debug` when the
debug flag is set, then `load_hex_file` when a file is given. -/
def prelude (st : Opts) : List Call :=
  (if st.flags &&& FLAG_DEBUG ≠ 0 then [Call.set_debug true] else []) ++
  (match st.file with
   | some f => [Call.load_hex_file f]
   | none => [])

/-- The calls that erase and program: `flash_erase` when the erase flag is set,
then `flash_write` when a file is given. -/
def program_calls (st : Opts) (e : Env) : List Call :=
  (if st.flags &&& FLAG_ERASE ≠ 0 then [Call.flash_erase] else []) ++
  (if st.file.isSome then [Call.flash_write (e.load_hex_file % 4294967296).toNat] else [])

/-- The ways a run of `session` can end, each with the answers of the outside
world that lead to it. -/
inductive Outcome (st : Opts) (e : Env) : Result → Prop where
  | load_failed : st.file.isSome → e.load_hex_file < 0 →
      Outcome st e ⟨prelude st, 1⟩
  | open_failed : (st.file.isSome → ¬ e.load_hex_file < 0) → e.termios_open ≠ 0 →
      Outcome st e ⟨prelude st ++ [Call.termios_open st.port], 1⟩
  | setup_failed : (st.file.isSome → ¬ e.load_hex_file < 0) → e.termios_open = 0 →
      e.termios_setup_min ≠ 0 →
      Outcome st e ⟨prelude st ++
        [Call.termios_open st.port, Call.termios_setup MINBAUD 8 1 'E'], 1⟩
  | detect_failed : (st.file.isSome → ¬ e.load_hex_file < 0) → e.termios_open = 0 →
      e.termios_setup_min = 0 → e.chip_detect ≠ 0 →
      Outcome st e ⟨prelude st ++
        [Call.termios_open st.port, Call.termios_setup MINBAUD 8 1 'E', Call.chip_detect], 1⟩
  | model_unknown : (st.file.isSome → ¬ e.load_hex_file < 0) → e.termios_open = 0 →
      e.termios_setup_min = 0 → e.chip_detect = 0 →
      e.model_lookup (chip_code_of e.recv) = none →
      Outcome st e ⟨prelude st ++
        [Call.termios_open st.port, Call.termios_setup MINBAUD 8 1 'E', Call.chip_detect,
         Call.model_lookup (chip_code_of e.recv)], 1⟩
  | protocol_unsupported (m : stc_model_t) :
      (st.file.isSome → ¬ e.load_hex_file < 0) → e.termios_open = 0 →
      e.termios_setup_min = 0 → e.chip_detect = 0 →
      e.model_lookup (chip_code_of e.recv) = some m →
      e.protocol_lookup m.protocol = none →
      Outcome st e ⟨prelude st ++
        [Call.termios_open st.port, Call.termios_setup MINBAUD 8 1 'E', Call.chip_detect,
         Call.model_lookup (chip_code_of e.recv), Call.protocol_lookup m.protocol], 1⟩
  | baudrate_set_failed (m : stc_model_t) (p : stc_protocol_t) :
      (st.file.isSome → ¬ e.load_hex_file < 0) → e.termios_open = 0 →
      e.termios_setup_min = 0 → e.chip_detect = 0 →
      e.model_lookup (chip_code_of e.recv) = some m →
      e.protocol_lookup m.protocol = some p →
      e.baudrate_set ≠ 0 →
      Outcome st e ⟨prelude st ++
        [Call.termios_open st.port, Call.termios_setup MINBAUD 8 1 'E', Call.chip_detect,
         Call.model_lookup (chip_code_of e.recv), Call.protocol_lookup m.protocol,
         Call.baudrate_set st.speed], 1⟩
  | speed_setup_failed (m : stc_model_t) (p : stc_protocol_t) :
      (st.file.isSome → ¬ e.load_hex_file < 0) → e.termios_open = 0 →
      e.termios_setup_min = 0 → e.chip_detect = 0 →
      e.model_lookup (chip_code_of e.recv) = some m →
      e.protocol_lookup m.protocol = some p →
      e.baudrate_set = 0 → e.termios_setup_speed < 0 →
      Outcome st e ⟨prelude st ++
        [Call.termios_open st.port, Call.termios_setup MINBAUD 8 1 'E', Call.chip_detect,
         Call.model_lookup (chip_code_of e.recv), Call.protocol_lookup m.protocol,
         Call.baudrate_set st.speed, Call.termios_setup st.speed 8 1 'E'], 1⟩
  | check_failed (m : stc_model_t) (p : stc_protocol_t) :
      (st.file.isSome → ¬ e.load_hex_file < 0) → e.termios_open = 0 →
      e.termios_setup_min = 0 → e.chip_detect = 0 →
      e.model_lookup (chip_code_of e.recv) = some m →
      e.protocol_lookup m.protocol = some p →
      e.baudrate_set = 0 → ¬ e.termios_setup_speed < 0 → e.baudrate_check < 0 →
      Outcome st e ⟨prelude st ++
        [Call.termios_open st.port, Call.termios_setup MINBAUD 8 1 'E', Call.chip_detect,
         Call.model_lookup (chip_code_of e.recv), Call.protocol_lookup m.protocol,
         Call.baudrate_set st.speed, Call.termios_setup st.speed 8 1 'E',
         Call.baudrate_check], 1⟩
  | erase_failed (m : stc_model_t) (p : stc_protocol_t) :
      (st.file.isSome → ¬ e.load_hex_file < 0) → e.termios_open = 0 →
      e.termios_setup_min = 0 → e.chip_detect = 0 →
      e.model_lookup (chip_code_of e.recv) = some m →
      e.protocol_lookup m.protocol = some p →
      e.baudrate_set = 0 → ¬ e.termios_setup_speed < 0 → ¬ e.baudrate_check < 0 →
      st.flags &&& FLAG_ERASE ≠ 0 → e.flash_erase < 0 →
      Outcome st e ⟨prelude st ++
        [Call.termios_open st.port, Call.termios_setup MINBAUD 8 1 'E', Call.chip_detect,
         Call.model_lookup (chip_code_of e.recv), Call.protocol_lookup m.protocol,
         Call.baudrate_set st.speed, Call.termios_setup st.speed 8 1 'E',
         Call.baudrate_check, Call.flash_erase], 1⟩
  | returned (m : stc_model_t) (p : stc_protocol_t) :
      (st.file.isSome → ¬ e.load_hex_file < 0) → e.termios_open = 0 →
      e.termios_setup_min = 0 → e.chip_detect = 0 →
      e.model_lookup (chip_code_of e.recv) = some m →
      e.protocol_lookup m.protocol = some p →
      e.baudrate_set = 0 → ¬ e.termios_setup_speed < 0 → ¬ e.baudrate_check < 0 →
      (st.flags &&& FLAG_ERASE ≠ 0 → ¬ e.flash_erase < 0) →
      Outcome st e ⟨prelude st ++
        [Call.termios_open st.port, Call.termios_setup MINBAUD 8 1 'E', Call.chip_detect,
         Call.model_lookup (chip_code_of e.recv), Call.protocol_lookup m.protocol,
         Call.baudrate_set st.speed, Call.termios_setup st.speed 8 1 'E',
         Call.baudrate_check] ++ program_calls st e, 0⟩

/-- The call belongs to the preparation of a run: `set_debug`,
`load_hex_file`, `termios_open` or `termios_setup`. -/
def Call.is_preparation : Call → Bool
  | .set_debug _ => true
  | .load_hex_file _ => true
  | .termios_open _ => true
  | .termios_setup _ _ _ _ => true
  | _ => false

/-- The preparation of a trace: its calls before the first one that is not a
preparation call. -/
def preparation (t : List Call) : List Call :=
  t.takeWhile Call.is_preparation

/-- The session steps of a trace: its calls from the first one on that is not
a preparation call (`chip_detect`, `model_lookup`, `protocol_lookup`,
`baudrate_set`, `baudrate_check`, `flash_erase` or `flash_write`, wherever it
stands), so that a trace is its preparation followed by its session steps. -/
def session_steps (t : List Call) : List Call :=
  t.dropWhile Call.is_preparation

/-- The fixed order of the session steps, for the values that are handed over:
`flash_erase` is part of it only with `erase`, `flash_write` only with `file`. -/
def fixed_order (erase file : Bool) (speed chip_code protocol len : Nat) : List Call :=
  [Call.chip_detect, Call.model_lookup chip_code, Call.protocol_lookup protocol,
    Call.baudrate_set speed, Call.termios_setup speed 8 1 'E', Call.baudrate_check]
  ++ (if erase then [Call.flash_erase] else [])
  ++ (if file then [Call.flash_write len] else [])

/-- A session step that `main` treats as failed, by the test `main` applies to
what the call returns (for `flash_write`, the test that prints `failed`).
Within the session steps `termios_setup` is the call with the requested
speed. -/
def treated_failed (e : Env) : Call → Prop
  | .chip_detect => e.chip_detect ≠ 0
  | .model_lookup c => e.model_lookup c = none
  | .protocol_lookup p => e.protocol_lookup p = none
  | .baudrate_set _ => e.baudrate_set ≠ 0
  | .termios_setup _ _ _ _ => e.termios_setup_speed < 0
  | .baudrate_check => e.baudrate_check < 0
  | .flash_erase => e.flash_erase < 0
  | .flash_write _ => e.flash_write < 0
  | _ => False

/-- The call touches the transport or comes after it was opened: every call
but `set_debug` and `load_hex_file`. -/
def Call.touches_transport : Call → Bool
  | .set_debug _ => false
  | .load_hex_file _ => false
  | _ => true

/-- The bit rates that `usage()` advertises, preceded by the sync rate
`MINBAUD`. -/
def advertised : List Int :=
  [2400, 4800, 9600, 19200, 38400, 57600, 115200, 230400, 460800, 500000, 576000,
   921600, 1000000, 1152000, 1500000, 2000000, 2500000, 3000000, 3500000, 4000000]

/-! ## Concrete runs -/

/-- An outside world in which every step succeeds: a 256-byte image, a detect
answer whose bytes 20 and 21 are `0xF1 0x47`, a model with 16 KB of flash. -/
def env_ok : Env :=
  { atoi := fun s => if s = "9600" then 9600 else 0
    load_hex_file := 256
    termios_open := 0
    termios_setup_min := 0
    chip_detect := 0
    recv := List.replicate 20 0 ++ [0xF1, 0x47] ++ List.replicate 20 0
    model_lookup := fun c => if c = 0xF147 then some ⟨0xF147, "STC8H1K16", 1, 16⟩ else none
    protocol_lookup := fun p =>
      if p = 1 then some ⟨1, "STC8H", 0x7F, 0x01, 0x05, 0x03, 0x22, 0x02, 0xFF, []⟩ else none
    baudrate_set := 0
    termios_setup_speed := 0
    baudrate_check := 0
    flash_erase := 0
    flash_write := 0 }

/-- As `env_ok`, but `flash_write` reports a failure. -/
def env_write_fails : Env := { env_ok with flash_write := -1 }

/-- As `env_ok`, but `load_hex_file` reports a failure. -/
def env_bad_hex : Env := { env_ok with load_hex_file := -1 }

/-- As `env_ok`, but the image has 100000 bytes, more than the 16 KB of the
model. -/
def env_oversize : Env := { env_ok with load_hex_file := 100000 }

/-- The command line `-f firmware.hex`. -/
def argv_flash : List Arg := [Arg.short 'f' (some "firmware.hex")]

/-- The command line `--debug`. -/
def argv_debug : List Arg := [Arg.long "debug" none]

/-- The command line `--sp 9600 --fl firmware.hex`, with abbreviated long
options. -/
def argv_abbreviated : List Arg :=
  [Arg.long "sp" (some "9600"), Arg.long "fl" (some "firmware.hex")]

theorem RL_pos (B : Int) (h : 0 < B) : RL B = 65536 - 6000000 / B := by
  unfold RL FUSER
  rw [show Int.tdiv 24000000 4 = 6000000 by decide,
    Int.tdiv_eq_ediv (by decide) (le_of_lt h)]

theorem floor_rat (B : Int) (h : 0 < B) : ⌊(6000000 : ℚ) / (B : ℚ)⌋ = 6000000 / B := by
  have h1 := Rat.floor_intCast_div_natCast 6000000 B.toNat
  have h2 : ((B.toNat : Int)) = B := Int.toNat_of_nonneg (le_of_lt h)
  have h3 : ((B.toNat : ℚ)) = (B : ℚ) := by exact_mod_cast congrArg (Int.cast : Int → ℚ) h2
  rw [h3, h2] at h1
  exact_mod_cast h1

theorem split_word (w : Int) (h0 : 0 ≤ w) (h1 : w ≤ 65535) :
    ((256 * HIBYTE w + LOBYTE w : Nat) : Int) = w := by
  unfold HIBYTE LOBYTE BYTE WORD
  rw [Int.emod_eq_of_lt h0 (by omega)]
  obtain ⟨n, rfl⟩ := Int.eq_ofNat_of_zero_le h0
  simp only [Int.toNat_ofNat, Nat.shiftRight_eq_div_pow]
  have : n ≤ 65535 := by omega
  omega

theorem RL_range (B : Int) (h0 : 92 ≤ B) (h1 : B ≤ 6000000) : 1 ≤ RL B ∧ RL B ≤ 65535 := by
  rw [RL_pos B (by omega)]
  have ha : (6000000 : Int) / B < 65536 := Int.ediv_lt_of_lt_mul (by omega) (by omega)
  have hb : (1 : Int) ≤ 6000000 / B := Int.le_ediv_of_mul_le (by omega) (by omega)
  omega

theorem RL_big (B : Int) (h : 6000000 < B) : RL B = 65536 := by
  rw [RL_pos B (by omega), Int.ediv_eq_zero_of_lt (by decide) h]; rfl

/-! ## The flags and `getopt_long` -/

theorem or_erase_and_erase (x : Nat) : (x ||| FLAG_ERASE) &&& FLAG_ERASE = FLAG_ERASE := by
  apply Nat.eq_of_testBit_eq; intro i
  simp only [Nat.testBit_and, Nat.testBit_or]
  cases Nat.testBit x i <;> cases Nat.testBit FLAG_ERASE i <;> rfl

theorem or_debug_and_debug (x : Nat) : (x ||| FLAG_DEBUG) &&& FLAG_DEBUG = FLAG_DEBUG := by
  apply Nat.eq_of_testBit_eq; intro i
  simp only [Nat.testBit_and, Nat.testBit_or]
  cases Nat.testBit x i <;> cases Nat.testBit FLAG_DEBUG i <;> rfl

theorem flags_disjoint : FLAG_DEBUG &&& FLAG_ERASE = 0 ∧ FLAG_ERASE &&& FLAG_DEBUG = 0 := by
  decide

theorem or_erase_and_debug (x : Nat) : (x ||| FLAG_ERASE) &&& FLAG_DEBUG = x &&& FLAG_DEBUG := by
  rw [Nat.and_distrib_right, flags_disjoint.2, Nat.or_zero]

theorem or_debug_and_erase (x : Nat) : (x ||| FLAG_DEBUG) &&& FLAG_ERASE = x &&& FLAG_ERASE := by
  rw [Nat.and_distrib_right, flags_disjoint.1, Nat.or_zero]

theorem shortSpec_no_arg (x : Char) (h : shortSpec optstring x = some false) :
    x ≠ 'p' ∧ x ≠ 's' ∧ x ≠ 'f' := by
  refine ⟨?_, ?_, ?_⟩ <;> rintro rfl <;> revert h <;> decide

theorem options_no_arg :
    ∀ o ∈ options, o.has_arg = HasArg.no_argument → o.val ≠ 'p' ∧ o.val ≠ 's' ∧ o.val ≠ 'f' := by
  decide

theorem longSpec_mem (table : List LongOpt) (name : String) (o : LongOpt)
    (h : longSpec table name = some o) : o ∈ table := by
  unfold longSpec at h
  split at h
  · rename_i q hf
    simp only [Option.some.injEq] at h
    subst h
    exact List.mem_of_find?_eq_some hf
  · split at h
    · cases h
    · rename_i q rest hl
      split_ifs at h
      simp only [Option.some.injEq] at h
      subst h
      have hq : q ∈ table.filter (fun o => name.toList.isPrefixOf o.name.toList) := by
        rw [hl]; exact List.mem_cons_self _ _
      exact (List.mem_filter.1 hq).1

/-- What `getopt_long` leaves in `optarg`: an argument for `'p'`, `'s'` and
`'f'`. -/
theorem getopt_long_optarg (a : Arg) (c : Char) (oa : Option String)
    (h : getopt_long optstring options a = some (c, oa))
    (hc : c = 'p' ∨ c = 's' ∨ c = 'f') : oa.isSome := by
  have hq : ¬ ('?' = 'p' ∨ '?' = 's' ∨ '?' = 'f') := by decide
  cases a with
  | nonopt s => simp [getopt_long] at h
  | short x o =>
    simp only [getopt_long] at h
    cases hs : shortSpec optstring x with
    | none =>
      simp only [hs, Option.some.injEq, Prod.mk.injEq] at h
      obtain ⟨rfl, -⟩ := h
      exact absurd hc hq
    | some b =>
      cases b with
      | false =>
        simp only [hs, Option.some.injEq, Prod.mk.injEq] at h
        obtain ⟨rfl, -⟩ := h
        have := shortSpec_no_arg _ hs
        tauto
      | true =>
        cases o with
        | none =>
          simp only [hs, Option.some.injEq, Prod.mk.injEq] at h
          obtain ⟨rfl, -⟩ := h
          exact absurd hc hq
        | some s =>
          simp only [hs, Option.some.injEq, Prod.mk.injEq] at h
          obtain ⟨-, rfl⟩ := h
          rfl
  | long n o =>
    simp only [getopt_long] at h
    split_ifs at h
    cases hl : longSpec options n with
    | none =>
      simp only [hl, Option.some.injEq, Prod.mk.injEq] at h
      obtain ⟨rfl, -⟩ := h
      exact absurd hc hq
    | some ent =>
      have hmem : ent ∈ options := longSpec_mem options n ent hl
      simp only [hl] at h
      cases hh : ent.has_arg <;> cases o <;>
        simp only [hh, Option.some.injEq, Prod.mk.injEq] at h <;>
        obtain ⟨h1, h2⟩ := h
      · have := options_no_arg ent hmem hh
        rw [h1] at this
        tauto
      · subst h1; exact absurd hc hq
      · subst h1; exact absurd hc hq
      · subst h2; rfl


/-! ## The option loop -/

theorem option_step_file (atoi : String → Int) (st st1 : Opts) (a : Arg)
    (h : option_step atoi st a = some st1) :
    st1.file.isSome = (st.file.isSome || (returned a == some 'f')) := by
  unfold option_step at h
  unfold returned
  cases hg : getopt_long optstring options a with
  | none =>
    simp only [hg, Option.some.injEq] at h
    subst h; simp
  | some p =>
    obtain ⟨c, oa⟩ := p
    simp only [hg, switch_arg] at h
    by_cases hf : c = 'f'
    · subst hf
      have hoa := getopt_long_optarg a _ oa hg (by decide)
      simp at h
      subst h
      simpa using hoa
    · have hne : ((some c : Option Char) == some 'f') = false := by simpa using hf
      simp only [Option.map_some', hne, Bool.or_false]
      split_ifs at h
      · simp at h; subst h; rfl
      · cases oa <;> simp at h <;> subst h <;> rfl
      · simp at h; subst h; rfl
      · simp at h; subst h; rfl

theorem option_step_erase (atoi : String → Int) (st st1 : Opts) (a : Arg)
    (h : option_step atoi st a = some st1) :
    (st1.flags &&& FLAG_ERASE ≠ 0) ↔ (st.flags &&& FLAG_ERASE ≠ 0 ∨ returned a = some 'e') := by
  unfold option_step at h
  unfold returned
  cases hg : getopt_long optstring options a with
  | none =>
    simp only [hg, Option.some.injEq] at h
    subst h; simp
  | some p =>
    obtain ⟨c, oa⟩ := p
    simp only [hg, switch_arg] at h
    simp only [Option.map_some', Option.some.injEq]
    split_ifs at h with h1 h2 h3 h4 h5
    · simp at h; subst h; subst h1; simp
    · cases oa <;> simp at h <;> subst h <;> subst h2 <;> simp
    · simp at h; subst h; subst h3; simp
    · simp at h; subst h; subst h4
      simp only [or_erase_and_erase]
      simp [FLAG_ERASE]
    · simp at h; subst h; subst h5
      simp only [or_debug_and_erase]
      simp

theorem requested_nil (c : Char) : requested c [] = false := rfl

theorem requested_cons_end (c : Char) (rest : List Arg) :
    requested c (end_of_options :: rest) = false := by
  simp [requested, scanned]

theorem requested_cons (c : Char) (a : Arg) (rest : List Arg) (h : a ≠ end_of_options) :
    requested c (a :: rest) = (returned a == some c || requested c rest) := by
  simp [requested, scanned, List.takeWhile_cons, h]

theorem option_loop_file (atoi : String → Int) (argv : List Arg) :
    ∀ st st1 : Opts, option_loop atoi st argv = some st1 →
      st1.file.isSome = (st.file.isSome || requested 'f' argv) := by
  induction argv with
  | nil => intro st st1 h; simp [option_loop] at h; subst h; simp [requested_nil]
  | cons a rest ih =>
    intro st st1 h
    simp only [option_loop] at h
    by_cases ha : a = end_of_options
    · rw [if_pos ha] at h
      simp only [Option.some.injEq] at h
      subst h; subst ha
      simp [requested_cons_end]
    · rw [if_neg ha] at h
      cases hs : option_step atoi st a with
      | none => simp [hs] at h
      | some st2 =>
        simp only [hs] at h
        rw [ih st2 st1 h, option_step_file atoi st st2 a hs, requested_cons _ _ _ ha]
        simp [Bool.or_assoc]

theorem option_loop_erase (atoi : String → Int) (argv : List Arg) :
    ∀ st st1 : Opts, option_loop atoi st argv = some st1 →
      ((st1.flags &&& FLAG_ERASE ≠ 0) ↔ (st.flags &&& FLAG_ERASE ≠ 0 ∨ requested 'e' argv)) := by
  induction argv with
  | nil => intro st st1 h; simp [option_loop] at h; subst h; simp [requested_nil]
  | cons a rest ih =>
    intro st st1 h
    simp only [option_loop] at h
    by_cases ha : a = end_of_options
    · rw [if_pos ha] at h
      simp only [Option.some.injEq] at h
      subst h; subst ha
      simp [requested_cons_end]
    · rw [if_neg ha] at h
      cases hs : option_step atoi st a with
      | none => simp [hs] at h
      | some st2 =>
        simp only [hs] at h
        rw [ih st2 st1 h, option_step_erase atoi st st2 a hs, requested_cons _ _ _ ha]
        simp [or_assoc]

theorem session_program_eq (st : Opts) (e : Env) (t : List Call) :
    session_program st e e.load_hex_file t =
      if st.flags &&& FLAG_ERASE ≠ 0 ∧ e.flash_erase < 0 then ⟨t ++ [Call.flash_erase], 1⟩
      else ⟨t ++ program_calls st e, 0⟩ := by
  simp only [session_program, program_calls, Id.run, bind, pure]
  split_ifs <;> simp_all

theorem session_program_eq_of_no_file (st : Opts) (e : Env) (h : Int) (t : List Call)
    (hf : st.file = none) :
    session_program st e h t =
      if st.flags &&& FLAG_ERASE ≠ 0 ∧ e.flash_erase < 0 then ⟨t ++ [Call.flash_erase], 1⟩
      else ⟨t ++ program_calls st e, 0⟩ := by
  simp only [session_program, program_calls, Id.run, bind, pure, hf]
  split_ifs <;> simp_all

theorem session_connect_outcome (st : Opts) (e : Env) (h : Int)
    (hh : st.file = none ∨ h = e.load_hex_file)
    (hl : st.file.isSome → ¬ e.load_hex_file < 0) :
    Outcome st e (session_connect st e h (prelude st)) := by
  have hprog : ∀ t, session_program st e h t =
      if st.flags &&& FLAG_ERASE ≠ 0 ∧ e.flash_erase < 0 then ⟨t ++ [Call.flash_erase], 1⟩
      else ⟨t ++ program_calls st e, 0⟩ := by
    intro t
    rcases hh with hh | hh
    · exact session_program_eq_of_no_file st e h t hh
    · rw [hh]; exact session_program_eq st e t
  simp only [session_connect, Id.run, bind, pure, hprog, List.append_assoc, List.singleton_append,
    List.cons_append, List.nil_append]
  by_cases h1 : e.termios_open ≠ 0
  · rw [if_pos h1]; exact Outcome.open_failed hl h1
  rw [if_neg h1]; rw [not_not] at h1
  by_cases h2 : e.termios_setup_min ≠ 0
  · rw [if_pos h2]; exact Outcome.setup_failed hl h1 h2
  rw [if_neg h2]; rw [not_not] at h2
  by_cases h3 : e.chip_detect ≠ 0
  · rw [if_pos h3]; exact Outcome.detect_failed hl h1 h2 h3
  rw [if_neg h3]; rw [not_not] at h3
  rcases hm : e.model_lookup (chip_code_of e.recv) with _ | m
  · exact Outcome.model_unknown hl h1 h2 h3 hm
  simp only []
  rcases hp : e.protocol_lookup m.protocol with _ | p
  · exact Outcome.protocol_unsupported m hl h1 h2 h3 hm hp
  simp only []
  by_cases h4 : e.baudrate_set ≠ 0
  · rw [if_pos h4]; exact Outcome.baudrate_set_failed m p hl h1 h2 h3 hm hp h4
  rw [if_neg h4]; rw [not_not] at h4
  by_cases h5 : e.termios_setup_speed < 0
  · rw [if_pos h5]; exact Outcome.speed_setup_failed m p hl h1 h2 h3 hm hp h4 h5
  rw [if_neg h5]
  by_cases h6 : e.baudrate_check < 0
  · rw [if_pos h6]; exact Outcome.check_failed m p hl h1 h2 h3 hm hp h4 h5 h6
  rw [if_neg h6]
  by_cases h7 : st.flags &&& FLAG_ERASE ≠ 0 ∧ e.flash_erase < 0
  · rw [if_pos h7]
    have := Outcome.erase_failed m p hl h1 h2 h3 hm hp h4 h5 h6 h7.1 h7.2
    simpa using this
  · rw [if_neg h7]
    have := Outcome.returned m p hl h1 h2 h3 hm hp h4 h5 h6 (fun hx hy => h7 ⟨hx, hy⟩)
    simpa using this

/-- Every run of `session` ends in one of the ways listed by `Outcome`. -/
theorem session_outcome (st : Opts) (e : Env) : Outcome st e (session st e) := by
  simp only [session, Id.run, bind, pure]
  rcases hf : st.file with _ | f
  · have hl : st.file.isSome → ¬ e.load_hex_file < 0 := by simp [hf]
    have := session_connect_outcome st e 0 (Or.inl hf) hl
    simp only [prelude, hf] at this
    split_ifs with hd <;> simp_all
  · by_cases hl : e.load_hex_file < 0
    · have := @Outcome.load_failed st e (by simp [hf]) hl
      simp only [prelude, hf] at this
      split_ifs with hd <;> simp_all
    · have := session_connect_outcome st e e.load_hex_file (Or.inr rfl) (fun _ => hl)
      simp only [prelude, hf] at this
      split_ifs with hd <;> simp_all

/-! ## Facts about the calls made before the port is opened -/

theorem prelude_mem (st : Opts) (c : Call) (h : c ∈ prelude st) :
    c = Call.set_debug true ∨ ∃ f, c = Call.load_hex_file f := by
  unfold prelude at h
  rcases List.mem_append.1 h with h | h
  · split_ifs at h <;> simp_all
  · split at h <;> simp_all

theorem prelude_load (st : Opts) (f : String) (h : Call.load_hex_file f ∈ prelude st) :
    st.file = some f := by
  unfold prelude at h
  rcases List.mem_append.1 h with h | h
  · split_ifs at h <;> simp at h
  · split at h <;> simp_all

theorem session_steps_prelude (st : Opts) (l : List Call) :
    session_steps (prelude st ++ l) = session_steps l := by
  unfold session_steps
  apply List.dropWhile_append_of_pos
  intro c hc
  rcases prelude_mem st c hc with rfl | ⟨f, rfl⟩ <;> rfl

theorem preparation_prelude (st : Opts) (l : List Call) :
    preparation (prelude st ++ l) = prelude st ++ preparation l := by
  unfold preparation
  apply List.takeWhile_append_of_pos
  intro c hc
  rcases prelude_mem st c hc with rfl | ⟨f, rfl⟩ <;> rfl

theorem not_mem_prelude (st : Opts) (x : Call) (hx : x.touches_transport = true) :
    x ∉ prelude st := by
  intro hc
  rcases prelude_mem st x hc with rfl | ⟨f, rfl⟩ <;> simp [Call.touches_transport] at hx

theorem session_steps_prelude_nil (st : Opts) : session_steps (prelude st) = [] := by
  have := session_steps_prelude st []
  simpa [session_steps] using this

/-! ## What holds of every way a run can end -/

theorem outcome_order (st : Opts) (e : Env) (r : Result) (h : Outcome st e r) :
    session_steps r.trace <+:
        fixed_order (decide (st.flags &&& FLAG_ERASE ≠ 0)) st.file.isSome st.speed
          (chip_code_of e.recv)
          (((e.model_lookup (chip_code_of e.recv)).map (fun m => m.protocol)).getD 0)
          (e.load_hex_file % 4294967296).toNat ∧
      (session_steps r.trace).Nodup ∧
      ∀ c ∈ (session_steps r.trace).dropLast, ¬ treated_failed e c := by
  cases h <;> simp only [List.append_assoc, session_steps_prelude, session_steps_prelude_nil] <;>
    simp [session_steps, fixed_order, program_calls, treated_failed, List.dropWhile,
      Call.is_preparation, *]
  all_goals (split_ifs <;> simp_all [treated_failed])

theorem program_calls_mem (st : Opts) (e : Env) (c : Call) (h : c ∈ program_calls st e) :
    c = Call.flash_erase ∨ c = Call.flash_write (e.load_hex_file % 4294967296).toNat := by
  unfold program_calls at h
  rcases List.mem_append.1 h with h | h <;> split_ifs at h <;> simp_all

theorem outcome_preparation (st : Opts) (e : Env) (r : Result) (h : Outcome st e r) :
    ∀ c ∈ preparation r.trace,
      c = Call.set_debug true ∨ (∃ f, c = Call.load_hex_file f) ∨
      c = Call.termios_open st.port ∨ c = Call.termios_setup 2400 8 1 'E' := by
  have hp : ∀ c ∈ prelude st, c = Call.set_debug true ∨ (∃ f, c = Call.load_hex_file f) ∨
      c = Call.termios_open st.port ∨ c = Call.termios_setup 2400 8 1 'E' := by
    intro c hc
    rcases prelude_mem st c hc with h | h
    · exact Or.inl h
    · exact Or.inr (Or.inl h)
  have hnil : preparation (prelude st) = prelude st := by
    have := preparation_prelude st []
    simpa [preparation] using this
  intro c hc
  cases h <;> simp only [List.append_assoc, preparation_prelude, hnil, List.mem_append] at hc
  case load_failed => exact hp c hc
  all_goals
    rcases hc with hc | hc
    · exact hp c hc
    · simp [preparation, List.takeWhile, Call.is_preparation, MINBAUD] at hc
      rcases hc with rfl | rfl <;> simp

theorem outcome_loaded (st : Opts) (e : Env) (r : Result) (h : Outcome st e r)
    (f : String) (hc : Call.load_hex_file f ∈ r.trace) : st.file = some f := by
  have hq : Call.load_hex_file f ∉ program_calls st e := by
    intro hx
    rcases program_calls_mem st e _ hx with hx | hx <;> simp at hx
  cases h <;> simp only [List.append_assoc, List.mem_append] at hc
  case load_failed => exact prelude_load st f hc
  all_goals
    rcases hc with hc | hc
    · exact prelude_load st f hc
    · simp [hq] at hc

theorem outcome_model_lookup (st : Opts) (e : Env) (r : Result) (h : Outcome st e r)
    (c : Nat) (hc : Call.model_lookup c ∈ r.trace) : c = chip_code_of e.recv := by
  have hp : Call.model_lookup c ∉ prelude st := not_mem_prelude st _ rfl
  have hq : Call.model_lookup c ∉ program_calls st e := by
    intro hx
    rcases program_calls_mem st e _ hx with hx | hx <;> simp at hx
  cases h <;> simp_all

theorem outcome_load_failed (st : Opts) (e : Env) (r : Result) (h : Outcome st e r)
    (hf : st.file.isSome) (hl : e.load_hex_file < 0) :
    r.status = 1 ∧ ∀ c ∈ r.trace, c.touches_transport = false := by
  have hp : ∀ c ∈ prelude st, c.touches_transport = false := by
    intro c hc
    rcases prelude_mem st c hc with rfl | ⟨f, rfl⟩ <;> rfl
  cases h
  case load_failed => exact ⟨rfl, hp⟩
  all_goals simp_all

theorem outcome_write (st : Opts) (e : Env) (r : Result) (h : Outcome st e r)
    (m : stc_model_t) (p : stc_protocol_t)
    (f : String) (hload : Call.load_hex_file f ∈ r.trace)
    (h0 : 0 ≤ e.load_hex_file) (h1 : e.termios_open = 0)
    (h2 : e.termios_setup_min = 0) (h3 : e.chip_detect = 0)
    (hm : e.model_lookup (chip_code_of e.recv) = some m)
    (hp : e.protocol_lookup m.protocol = some p)
    (h4 : e.baudrate_set = 0) (h5 : 0 ≤ e.termios_setup_speed) (h6 : 0 ≤ e.baudrate_check)
    (h7 : Call.flash_erase ∈ r.trace → 0 ≤ e.flash_erase) :
    Call.flash_write (e.load_hex_file % 4294967296).toNat ∈ r.trace ∧ r.status = 0 := by
  have hf : st.file.isSome := by rw [outcome_loaded st e r h f hload]; rfl
  cases h
  case returned => simp [program_calls, hf]
  case erase_failed =>
    have := h7 (by simp)
    omega
  all_goals simp_all
  all_goals omega

/-- A run that ends with status 0 has treated no call as failed, `flash_write`
apart. -/
theorem outcome_status_zero (st : Opts) (e : Env) (r : Result) (h : Outcome st e r)
    (hs : r.status = 0) :
    (st.file.isSome → 0 ≤ e.load_hex_file) ∧ e.termios_open = 0 ∧ e.termios_setup_min = 0 ∧
    ∀ c ∈ session_steps r.trace, treated_failed e c → ∃ len, c = Call.flash_write len := by
  cases h <;> simp at hs
  case returned m p hl h1 h2 h3 hm hq h4 h5 h6 h7 =>
    refine ⟨by simpa using hl, h1, h2, ?_⟩
    simp only [List.append_assoc, session_steps_prelude]
    have hss : ∀ l, session_steps ([Call.termios_open st.port,
        Call.termios_setup MINBAUD 8 1 'E', Call.chip_detect,
        Call.model_lookup (chip_code_of e.recv), Call.protocol_lookup m.protocol,
        Call.baudrate_set st.speed, Call.termios_setup st.speed 8 1 'E',
        Call.baudrate_check] ++ l) =
        [Call.chip_detect, Call.model_lookup (chip_code_of e.recv),
          Call.protocol_lookup m.protocol, Call.baudrate_set st.speed,
          Call.termios_setup st.speed 8 1 'E', Call.baudrate_check] ++ l := by
      intro l; simp [session_steps, List.dropWhile, Call.is_preparation]
    rw [hss]
    intro c hc hfail
    unfold program_calls at hc
    simp only [List.mem_cons, List.mem_append, List.not_mem_nil, or_false, or_assoc] at hc
    rcases hc with rfl | rfl | rfl | rfl | rfl | rfl | hc | hc
    · exact absurd h3 hfail
    · have hn : e.model_lookup (chip_code_of e.recv) = none := hfail
      rw [hm] at hn; cases hn
    · have hn : e.protocol_lookup m.protocol = none := hfail
      rw [hq] at hn; cases hn
    · exact absurd h4 hfail
    · exact absurd hfail h5
    · exact absurd hfail h6
    · split_ifs at hc with he
      · simp only [List.mem_singleton] at hc
        subst hc
        exact absurd hfail (h7 he)
      · simp at hc
    · split_ifs at hc
      · exact ⟨_, List.mem_singleton.1 hc⟩
      · simp at hc

/-! ## The claims on the reload macro -/

/-- C2: for each `B` of 9600, 115200 and 1000000 the macro `RL(B)` equals
`(65536 - 6000000 / B) mod 65536`, and for every `B > 0` it equals
`65536 - ((24000000 / 4) / B)`, which is `65536 - floor(6000000 / B)`. -/
theorem RL_formula :
    (∀ B ∈ [(9600 : Int), 115200, 1000000], RL B = (65536 - 6000000 / B) % 65536) ∧
    (∀ B : Int, 0 < B →
      RL B = 65536 - ((24000000 / 4) / B) ∧
      RL B = 65536 - ⌊(6000000 : ℚ) / (B : ℚ)⌋) := by
  refine ⟨by decide, fun B h => ⟨?_, ?_⟩⟩
  · rw [RL_pos B h]; rfl
  · rw [RL_pos B h, floor_rat B h]

theorem RL_formula_witness :
    ((115200 : Int) ∈ [(9600 : Int), 115200, 1000000] ∧
      RL 115200 = (65536 - 6000000 / 115200) % 65536) ∧
    ((0 : Int) < 7 ∧ RL 7 = 65536 - ((24000000 / 4) / 7) ∧
      RL 7 = 65536 - ⌊(6000000 : ℚ) / ((7 : Int) : ℚ)⌋) :=
  ⟨⟨by decide, RL_formula.1 115200 (by decide)⟩, ⟨by decide, RL_formula.2 7 (by decide)⟩⟩

/-- C3, as stated, fails: `RL(115200)` is not 12480, its high byte is not
`0x30` and its low byte is not `0xC0`. -/
theorem RL_115200_not_12480 :
    RL 115200 ≠ 12480 ∧ HIBYTE (RL 115200) ≠ 0x30 ∧ LOBYTE (RL 115200) ≠ 0xC0 := by
  decide

/-- C3, amended: for the bit rate 115200 the reload value is
`65536 - 6000000 / 115200 = 65484`, and its big-endian byte pair is
`0xFF 0xCC`. -/
theorem RL_115200 :
    HIBYTE (RL 115200) = 0xFF ∧ LOBYTE (RL 115200) = 0xCC ∧
      RL 115200 = 65536 - 6000000 / 115200 ∧ RL 115200 = 65484 := by
  decide

/-- C10: for the sync rate and every advertised bit rate `B`, `RL(B)` lies in
`1..65535` and splits into its two bytes without loss; the same holds for every
`B` from 92 to 6000000; above 6000000, `RL(B)` is 65536 and both bytes are 0. -/
theorem RL_fits_word :
    (∀ B ∈ advertised,
      1 ≤ RL B ∧ RL B ≤ 65535 ∧ ((256 * HIBYTE (RL B) + LOBYTE (RL B) : Nat) : Int) = RL B) ∧
    (∀ B : Int, 92 ≤ B → B ≤ 6000000 →
      1 ≤ RL B ∧ RL B ≤ 65535 ∧ ((256 * HIBYTE (RL B) + LOBYTE (RL B) : Nat) : Int) = RL B) ∧
    (∀ B : Int, 6000000 < B →
      RL B = 65536 ∧ HIBYTE (RL B) = 0 ∧ LOBYTE (RL B) = 0 ∧
      256 * HIBYTE (RL B) + LOBYTE (RL B) = 0) := by
  have key : ∀ B : Int, 92 ≤ B → B ≤ 6000000 →
      1 ≤ RL B ∧ RL B ≤ 65535 ∧ ((256 * HIBYTE (RL B) + LOBYTE (RL B) : Nat) : Int) = RL B := by
    intro B h0 h1
    obtain ⟨ha, hb⟩ := RL_range B h0 h1
    exact ⟨ha, hb, split_word (RL B) (by omega) hb⟩
  refine ⟨?_, key, ?_⟩
  · intro B hB
    have hr : 92 ≤ B ∧ B ≤ 6000000 := by
      simp only [advertised, List.mem_cons, List.mem_singleton, List.not_mem_nil, or_false] at hB
      omega
    exact key B hr.1 hr.2
  · intro B h
    rw [RL_big B h]
    decide

theorem RL_fits_word_witness :
    ((115200 : Int) ∈ advertised ∧ 1 ≤ RL 115200 ∧ RL 115200 ≤ 65535 ∧
      ((256 * HIBYTE (RL 115200) + LOBYTE (RL 115200) : Nat) : Int) = RL 115200) ∧
    ((92 : Int) ≤ 92 ∧ (92 : Int) ≤ 6000000 ∧ 1 ≤ RL 92 ∧ RL 92 ≤ 65535 ∧
      ((256 * HIBYTE (RL 92) + LOBYTE (RL 92) : Nat) : Int) = RL 92) ∧
    ((6000000 : Int) < 6000001 ∧ RL 6000001 = 65536 ∧ HIBYTE (RL 6000001) = 0 ∧
      LOBYTE (RL 6000001) = 0 ∧ 256 * HIBYTE (RL 6000001) + LOBYTE (RL 6000001) = 0) :=
  ⟨⟨by decide, RL_fits_word.1 115200 (by decide)⟩,
   ⟨by decide, by decide, RL_fits_word.2.1 92 (by decide) (by decide)⟩,
   ⟨by decide, RL_fits_word.2.2 6000001 (by decide)⟩⟩

/-! ## `main` -/

theorem main_cases (argv : List Arg) (e : Env) :
    main argv e = ⟨[], 1⟩ ∨
    ∃ st, option_loop e.atoi Opts.init argv = some st ∧ main argv e = session st e := by
  unfold main
  rcases h : option_loop e.atoi Opts.init argv with _ | st
  · exact Or.inl rfl
  · by_cases ha : argc_lt_2 argv = true
    · left; simp [ha]
    · right; exact ⟨st, rfl, by simp [ha]⟩

theorem main_erase_flag (argv : List Arg) (e : Env) (st : Opts)
    (h : option_loop e.atoi Opts.init argv = some st) :
    decide (st.flags &&& FLAG_ERASE ≠ 0) = requested 'e' argv := by
  have := option_loop_erase e.atoi argv Opts.init st h
  rw [Bool.eq_iff_iff, decide_eq_true_iff, this]
  simp [Opts.init]

theorem main_file (argv : List Arg) (e : Env) (st : Opts)
    (h : option_loop e.atoi Opts.init argv = some st) :
    st.file.isSome = requested 'f' argv := by
  rw [option_loop_file e.atoi argv Opts.init st h]
  simp [Opts.init]

/-- C1, at the failing input: with `-f firmware.hex`, every earlier step
succeeding and `flash_write` returning `-1`, `main` calls `flash_write` and
ends with status 0. -/
theorem main_write_failure_status :
    env_write_fails.flash_write < 0 ∧
    Call.flash_write 256 ∈ (main argv_flash env_write_fails).trace ∧
    (main argv_flash env_write_fails).status = 0 := by
  decide

/-- Apart from `flash_write`, a run of `main` with status 0 has treated no call
as failed. -/
theorem main_status_zero (argv : List Arg) (e : Env) (hs : (main argv e).status = 0) :
    (requested 'f' argv → 0 ≤ e.load_hex_file) ∧ e.termios_open = 0 ∧
    e.termios_setup_min = 0 ∧
    ∀ c ∈ session_steps (main argv e).trace, treated_failed e c →
      ∃ len, c = Call.flash_write len := by
  rcases main_cases argv e with h | ⟨st, hst, h⟩
  · rw [h] at hs; simp at hs
  · rw [h] at hs ⊢
    have := outcome_status_zero st e _ (session_outcome st e) hs
    rwa [main_file argv e st hst] at this

theorem main_status_zero_witness :
    (main argv_flash env_ok).status = 0 ∧ env_ok.termios_open = 0 :=
  ⟨by decide, (main_status_zero argv_flash env_ok (by decide)).2.1⟩

/-- The order of the session steps, with the erase step gated by the flag: the
calls of a run are its preparation (`set_debug`, `load_hex_file`,
`termios_open`, `termios_setup(2400, 8, 1, 'E')`) followed by its session
steps; the session steps form an initial segment of the fixed order, with
`flash_erase` only if `getopt_long` returned `'e'` for some option and
`flash_write` only if it returned `'f'`; no step is invoked twice, and a step
that is followed by another one was not treated as failed. -/
theorem main_session_order (argv : List Arg) (e : Env) :
    (main argv e).trace = preparation (main argv e).trace ++ session_steps (main argv e).trace ∧
    (∀ c ∈ preparation (main argv e).trace,
      c = Call.set_debug true ∨ (∃ f, c = Call.load_hex_file f) ∨
      (∃ port, c = Call.termios_open port) ∨ c = Call.termios_setup 2400 8 1 'E') ∧
    ∃ speed chip_code protocol len,
      session_steps (main argv e).trace <+:
        fixed_order (requested 'e' argv) (requested 'f' argv) speed chip_code protocol len ∧
      (session_steps (main argv e).trace).Nodup ∧
      ∀ c ∈ (session_steps (main argv e).trace).dropLast, ¬ treated_failed e c := by
  refine ⟨(List.takeWhile_append_dropWhile _ _).symm, ?_, ?_⟩
  · rcases main_cases argv e with h | ⟨st, hst, h⟩
    · rw [h]; simp [preparation]
    · rw [h]
      intro c hc
      rcases outcome_preparation st e _ (session_outcome st e) c hc with h | h | h | h
      · exact Or.inl h
      · exact Or.inr (Or.inl h)
      · exact Or.inr (Or.inr (Or.inl ⟨_, h⟩))
      · exact Or.inr (Or.inr (Or.inr h))
  · rcases main_cases argv e with h | ⟨st, hst, h⟩
    · rw [h]
      exact ⟨0, 0, 0, 0, by simp [session_steps]⟩
    · rw [h]
      have := outcome_order st e _ (session_outcome st e)
      rw [main_erase_flag argv e st hst, main_file argv e st hst] at this
      exact ⟨_, _, _, _, this⟩

/-- C5, at the failing input: with `--debug` alone and every step succeeding,
the command line does not ask for an erase, yet `main` calls `flash_erase`
(and never calls `set_debug`). -/
theorem main_debug_option_erases :
    erase_asked argv_debug = false ∧
    Call.flash_erase ∈ (main argv_debug env_ok).trace ∧
    Call.set_debug true ∉ (main argv_debug env_ok).trace ∧
    (main argv_debug env_ok).status = 0 := by
  decide

/-- C7: when a file is given (a scanned option is `-f` or `--flash`,
abbreviated or not, or `load_hex_file` was called) and `load_hex_file` returns
a negative value, the run ends with status 1 and has called nothing but
`set_debug` and `load_hex_file`: no `termios_open`, no `termios_setup`, no
`chip_detect`, no later step. -/
theorem main_load_failure (argv : List Arg) (e : Env)
    (hf : requested 'f' argv = true ∨ ∃ f, Call.load_hex_file f ∈ (main argv e).trace)
    (hl : e.load_hex_file < 0) :
    (main argv e).status = 1 ∧ ∀ c ∈ (main argv e).trace, c.touches_transport = false := by
  rcases main_cases argv e with h | ⟨st, hst, h⟩
  · rw [h]; simp
  · rw [h] at hf ⊢
    have hfile : st.file.isSome := by
      rcases hf with hf | ⟨f, hf⟩
      · rw [main_file argv e st hst]; exact hf
      · rw [outcome_loaded st e _ (session_outcome st e) f hf]; rfl
    exact outcome_load_failed st e _ (session_outcome st e) hfile hl

theorem main_load_failure_witness :
    (requested 'f' argv_flash = true ∧ env_bad_hex.load_hex_file < 0 ∧
      (main argv_flash env_bad_hex).status = 1 ∧
      ∀ c ∈ (main argv_flash env_bad_hex).trace, c.touches_transport = false) ∧
    (Call.load_hex_file "firmware.hex" ∈ (main argv_abbreviated env_bad_hex).trace ∧
      (main argv_abbreviated env_bad_hex).status = 1 ∧
      ∀ c ∈ (main argv_abbreviated env_bad_hex).trace, c.touches_transport = false) :=
  ⟨⟨by decide, by decide,
      main_load_failure argv_flash env_bad_hex (Or.inl (by decide)) (by decide)⟩,
   ⟨by decide,
      main_load_failure argv_abbreviated env_bad_hex (Or.inr ⟨"firmware.hex", by decide⟩) (by decide)⟩⟩

theorem chip_code_of_eq (recv : List Nat) (h20 : recv.getD 20 0 < 256)
    (h21 : recv.getD 21 0 < 256) :
    chip_code_of recv = 256 * recv.getD 20 0 + recv.getD 21 0 := by
  simp only [chip_code_of, recv_at, Nat.shiftLeft_eq]
  omega

/-- C4: with a receive buffer of at least 22 bytes, the chip code that `main`
hands to `model_lookup` is `256 * recv[20] + recv[21]`; it is at most 65535, and
any buffer with the same bytes at the indices 20 and 21 gives the same code. -/
theorem main_chip_code (argv : List Arg) (e : Env) (c : Nat)
    (hlen : 22 ≤ e.recv.length) (hbytes : ∀ b ∈ e.recv, b < 256)
    (hc : Call.model_lookup c ∈ (main argv e).trace) :
    c = 256 * e.recv[20] + e.recv[21] ∧ c ≤ 65535 ∧
    ∀ (recv2 : List Nat) (h2 : 22 ≤ recv2.length), (∀ b ∈ recv2, b < 256) →
      recv2[20] = e.recv[20] → recv2[21] = e.recv[21] → chip_code_of recv2 = c := by
  have key : ∀ (l : List Nat) (hl : 22 ≤ l.length), (∀ b ∈ l, b < 256) →
      chip_code_of l = 256 * l[20] + l[21] ∧ l[20] < 256 ∧ l[21] < 256 := by
    intro l hl hb
    have h20 : l[20] < 256 := hb _ (List.getElem_mem _)
    have h21 : l[21] < 256 := hb _ (List.getElem_mem _)
    have e20 : l.getD 20 0 = l[20] := by
      rw [List.getD_eq_getElem?_getD, List.getElem?_eq_getElem (by omega)]; rfl
    have e21 : l.getD 21 0 = l[21] := by
      rw [List.getD_eq_getElem?_getD, List.getElem?_eq_getElem (by omega)]; rfl
    refine ⟨?_, h20, h21⟩
    rw [chip_code_of_eq l (by rw [e20]; exact h20) (by rw [e21]; exact h21), e20, e21]
  have hcode : c = chip_code_of e.recv := by
    rcases main_cases argv e with h | ⟨st, _, h⟩
    · rw [h] at hc; simp at hc
    · rw [h] at hc
      exact outcome_model_lookup st e _ (session_outcome st e) c hc
  obtain ⟨h1, h2, h3⟩ := key e.recv hlen hbytes
  refine ⟨by rw [hcode, h1], by omega, ?_⟩
  intro recv2 hl2 hb2 e20 e21
  rw [(key recv2 hl2 hb2).1, e20, e21, hcode, h1]

theorem main_chip_code_witness :
    22 ≤ env_ok.recv.length ∧ (∀ b ∈ env_ok.recv, b < 256) ∧
    Call.model_lookup 0xF147 ∈ (main argv_flash env_ok).trace ∧
    0xF147 = 256 * 0xF1 + 0x47 ∧ 0xF147 ≤ 65535 :=
  ⟨by decide, by decide, by decide,
    (main_chip_code argv_flash env_ok 0xF147 (by decide) (by decide) (by decide)).1,
    (main_chip_code argv_flash env_ok 0xF147 (by decide) (by decide) (by decide)).2.1⟩

/-- C8, as stated, fails: with `-f firmware.hex`, an image of 100000 bytes and
a detected model of 16 KB flash, `main` calls `flash_write` with 100000 and ends
with status 0. -/
theorem main_oversize_image_written :
    env_oversize.model_lookup (chip_code_of env_oversize.recv) =
      some ⟨0xF147, "STC8H1K16", 1, 16⟩ ∧
    (16 * 1024 : Int) < env_oversize.load_hex_file ∧
    Call.flash_write 100000 ∈ (main argv_flash env_oversize).trace ∧
    (main argv_flash env_oversize).status = 0 := by
  decide

/-- C8, amended: `main` does not compare the image size with the flash
capacity.  In every run in which `load_hex_file` is called and returns an
image size that exceeds the capacity of the detected model, and every step
before `flash_write` succeeds (`flash_erase` too, when it is called),
`flash_write` is called with that size; when `flash_write` succeeds too, the
status is 0. -/
theorem main_no_capacity_check (argv : List Arg) (e : Env) (f : String)
    (m : stc_model_t) (p : stc_protocol_t)
    (hload : Call.load_hex_file f ∈ (main argv e).trace)
    (h0 : 0 ≤ e.load_hex_file) (hint : e.load_hex_file < 2147483648)
    (h1 : e.termios_open = 0) (h2 : e.termios_setup_min = 0) (h3 : e.chip_detect = 0)
    (hm : e.model_lookup (chip_code_of e.recv) = some m)
    (hp : e.protocol_lookup m.protocol = some p)
    (h4 : e.baudrate_set = 0) (h5 : 0 ≤ e.termios_setup_speed) (h6 : 0 ≤ e.baudrate_check)
    (h7 : Call.flash_erase ∈ (main argv e).trace → 0 ≤ e.flash_erase)
    (_hbig : (m.flash_size_kb : Int) * 1024 < e.load_hex_file) :
    Call.flash_write e.load_hex_file.toNat ∈ (main argv e).trace ∧
    (0 ≤ e.flash_write → (main argv e).status = 0) := by
  rcases main_cases argv e with h | ⟨st, hst, h⟩
  · rw [h] at hload; simp at hload
  · rw [h] at hload h7 ⊢
    have := outcome_write st e _ (session_outcome st e) m p f hload h0 h1 h2 h3 hm hp h4 h5 h6 h7
    rw [Int.emod_eq_of_lt h0 (by omega)] at this
    exact ⟨this.1, fun _ => this.2⟩

theorem main_no_capacity_check_witness :
    Call.load_hex_file "firmware.hex" ∈ (main argv_flash env_oversize).trace ∧
    ((16 : Nat) : Int) * 1024 < env_oversize.load_hex_file ∧
    Call.flash_write (100000 : Int).toNat ∈ (main argv_flash env_oversize).trace ∧
    (0 ≤ env_oversize.flash_write → (main argv_flash env_oversize).status = 0) :=
  ⟨by decide, by decide,
    main_no_capacity_check argv_flash env_oversize "firmware.hex"
      ⟨0xF147, "STC8H1K16", 1, 16⟩ ⟨1, "STC8H", 0x7F, 0x01, 0x05, 0x03, 0x22, 0x02, 0xFF, []⟩
      (by decide) (by decide) (by decide) (by decide) (by decide) (by decide) (by decide)
      (by decide) (by decide) (by decide) (by decide) (fun _ => by decide) (by decide)⟩

/-- C9: the entries `erase` and `debug` of the option table both carry `'e'`,
so for every state of the local variables `--debug` does what `--erase` does:
it sets `FLAG_ERASE` and leaves `FLAG_DEBUG` (and everything else) as it was;
`-d` sets `FLAG_DEBUG` and leaves `FLAG_ERASE` as it was, `-e` sets
`FLAG_ERASE` and leaves `FLAG_DEBUG` as it was; the two flags are distinct
bits. -/
theorem debug_long_option_sets_erase :
    ((longSpec options "erase").map (fun o => o.val) = some 'e' ∧
      (longSpec options "debug").map (fun o => o.val) = some 'e') ∧
    (∀ (atoi : String → Int) (st : Opts),
      option_step atoi st (Arg.long "debug" none) =
        option_step atoi st (Arg.long "erase" none) ∧
      option_step atoi st (Arg.long "debug" none) =
        some { st with flags := st.flags ||| FLAG_ERASE } ∧
      option_step atoi st (Arg.short 'e' none) =
        some { st with flags := st.flags ||| FLAG_ERASE } ∧
      option_step atoi st (Arg.short 'd' none) =
        some { st with flags := st.flags ||| FLAG_DEBUG } ∧
      (st.flags ||| FLAG_ERASE) &&& FLAG_ERASE = FLAG_ERASE ∧
      (st.flags ||| FLAG_ERASE) &&& FLAG_DEBUG = st.flags &&& FLAG_DEBUG ∧
      (st.flags ||| FLAG_DEBUG) &&& FLAG_DEBUG = FLAG_DEBUG ∧
      (st.flags ||| FLAG_DEBUG) &&& FLAG_ERASE = st.flags &&& FLAG_ERASE) ∧
    (FLAG_DEBUG = 1 ∧ FLAG_ERASE = 2 ∧ FLAG_DEBUG &&& FLAG_ERASE = 0) := by
  refine ⟨by decide, fun atoi st => ⟨rfl, rfl, rfl, rfl, ?_, ?_, ?_, ?_⟩, by decide⟩
  · exact or_erase_and_erase _
  · exact or_erase_and_debug _
  · exact or_debug_and_debug _
  · exact or_debug_and_erase _

end Stc8prog
